import Mathlib

/-!
# az-blob-robber — verification of the specified core behaviours

A shallow embedding of the Go sources of `az-blob-robber`:

* `pkg/azure/client.go` — probe and download client (`CheckContainer`,
  `DownloadBlob` query-parameter selection);
* `pkg/azure/models.go` — blob listing model (`Blob.IsDeleted`);
* `pkg/scanner/scanner.go` — the discovery scanner worker pool, modelled as
  per-worker sequences of atomic actions (mutex-protected counter increments
  and reads, channel sends) together with an explicit interleaving checker,
  so that properties of every possible execution order can be stated;
* `pkg/ui/app.go` — the single-file and bulk download step engines and the
  message handlers of the consumer that drive them.

HTTP, the filesystem and readers/writers are external collaborators: they are
modelled by their observable behaviour (an HTTP status outcome, a sequence of
read results, a sink that persists what each of its write outcomes accepts
and may return write errors), never by the transport itself.
-/

namespace AzBlobRobber

/-! ## Azure client (`pkg/azure/client.go`) -/

/-- Observable outcome of the container-listing HTTP request issued by
`CheckContainer`: either the request failed in transport (DNS error,
request-creation error — both return `(false, false)` in the source) or a
response with some status code arrived. -/
inductive HttpOutcome
  | transportError
  | status (code : Nat)
deriving DecidableEq

/-- `Client.CheckContainer` from `pkg/azure/client.go` (lines 99–125), as a
function of the observable HTTP outcome.  Returns `(exists, public)`:
`(true, true)` on status 200, `(true, false)` on status 403, `(false, false)`
on every other status and on transport errors. -/
def CheckContainer (o : HttpOutcome) : Bool × Bool :=
  match o with
  | HttpOutcome.transportError => (false, false)
  | HttpOutcome.status code =>
    if code = 200 then (true, true)
    else if code = 403 then (true, false)
    else (false, false)

/-- Which query parameter `DownloadBlob` appends for a snapshot/version
identifier. -/
inductive BlobQueryParam
  | versionId
  | snapshot
deriving DecidableEq

/-- The query-parameter selection of `Client.DownloadBlob` from
`pkg/azure/client.go` (lines 251–259).  Strings are modelled as lists of
characters (the Go code indexes bytes; for the RFC3339 identifiers involved
the two coincide).  An empty identifier adds no parameter; an identifier
longer than 10 characters whose character at index 10 is the letter T selects
`versionId`; any other non-empty identifier selects `snapshot`. -/
def downloadBlobQueryParam (s : List Char) : Option BlobQueryParam :=
  if s = [] then none
  else if 10 < s.length ∧ s.get? 10 = some 'T' then some BlobQueryParam.versionId
  else some BlobQueryParam.snapshot

/-! ## Azure blob model (`pkg/azure/models.go`) -/

/-- The `Properties` XML element of a listed blob (`pkg/azure/models.go`).
Only the fields that the modelled operations read are carried. -/
structure BlobProperties where
  lastModified : String := ""
  contentLength : Nat := 0
  deletedTime : String := ""
deriving DecidableEq

/-- The `Blob` XML element of a listing response (`pkg/azure/models.go`,
lines 17–25).  `isCurrentVersion` is a pointer in the source, modelled as an
`Option Bool` so that absence is distinguishable from `false`. -/
structure Blob where
  name : String := ""
  snapshot : String := ""
  versionId : String := ""
  isCurrentVersion : Option Bool := none
  deleted : Bool := false
  properties : BlobProperties := {}
deriving DecidableEq

/-- `Blob.IsDeleted` from `pkg/azure/models.go` (lines 41–56): deleted when
the blob-level `Deleted` flag is set, or `Properties.DeletedTime` is
non-empty, or the blob carries a `VersionId` and `IsCurrentVersion` is absent
or false. -/
def Blob.IsDeleted (b : Blob) : Bool :=
  if b.deleted then true
  else if b.properties.deletedTime ≠ "" then true
  else if b.versionId ≠ "" ∧ (b.isCurrentVersion = none ∨ b.isCurrentVersion = some false) then true
  else false

/-! ## Claims C8, C9, C10 -/

/-- C8: `CheckContainer` never reports `public = true` together with
`exists = false`; `public` is true exactly on a 200 listing response, and
`exists` is true exactly on 200 or 403. -/
theorem checkContainer_public_implies_exists (o : HttpOutcome) :
    CheckContainer o ≠ (false, true) ∧
    ((CheckContainer o).2 = true ↔ o = HttpOutcome.status 200) ∧
    ((CheckContainer o).1 = true ↔ (o = HttpOutcome.status 200 ∨ o = HttpOutcome.status 403)) := by
  rcases o with _ | code
  · simp [CheckContainer]
  · by_cases h200 : code = 200
    · subst h200; simp [CheckContainer]
    · by_cases h403 : code = 403
      · subst h403; simp [CheckContainer]
      · simp [CheckContainer, h200, h403]

/-- C8 witness: the 403 instance of `checkContainer_public_implies_exists`.  A
container answering 403 exists but is not public. -/
theorem checkContainer_public_implies_exists_witness :
    CheckContainer (HttpOutcome.status 403) ≠ (false, true) ∧
    ((CheckContainer (HttpOutcome.status 403)).2 = true ↔ HttpOutcome.status 403 = HttpOutcome.status 200) ∧
    ((CheckContainer (HttpOutcome.status 403)).1 = true ↔
      (HttpOutcome.status 403 = HttpOutcome.status 200 ∨ HttpOutcome.status 403 = HttpOutcome.status 403)) :=
  checkContainer_public_implies_exists (HttpOutcome.status 403)

/-- C9: for a non-empty snapshot-or-version argument, `DownloadBlob` selects
the `versionId` query parameter exactly when the argument is longer than 10
characters with character index 10 equal to the letter T, and the `snapshot`
parameter otherwise; the empty argument selects no parameter. -/
theorem downloadBlobQueryParam_spec (s : List Char) :
    (downloadBlobQueryParam s = none ↔ s = []) ∧
    (downloadBlobQueryParam s = some BlobQueryParam.versionId ↔
      (s ≠ [] ∧ 10 < s.length ∧ s.get? 10 = some 'T')) ∧
    (downloadBlobQueryParam s = some BlobQueryParam.snapshot ↔
      (s ≠ [] ∧ ¬(10 < s.length ∧ s.get? 10 = some 'T'))) := by
  unfold downloadBlobQueryParam
  by_cases hnil : s = []
  · subst hnil; simp
  · rw [if_neg hnil]
    by_cases hver : 10 < s.length ∧ s.get? 10 = some 'T'
    · rw [if_pos hver]
      refine ⟨⟨fun h => Option.noConfusion h, fun h => absurd h hnil⟩, ?_, ?_⟩
      · exact ⟨fun _ => ⟨hnil, hver⟩, fun _ => rfl⟩
      · exact ⟨fun h => BlobQueryParam.noConfusion (Option.some.inj h),
          fun h => absurd hver h.2⟩
    · rw [if_neg hver]
      refine ⟨⟨fun h => Option.noConfusion h, fun h => absurd h hnil⟩, ?_, ?_⟩
      · exact ⟨fun h => BlobQueryParam.noConfusion (Option.some.inj h),
          fun h => absurd h.2 hver⟩
      · exact ⟨fun _ => ⟨hnil, hver⟩, fun _ => rfl⟩

/-- C9 witness: `downloadBlobQueryParam_spec` applied at an RFC3339 version
identifier (character 10 is T), where the `versionId` parameter is chosen. -/
theorem downloadBlobQueryParam_spec_witness :
    (downloadBlobQueryParam "2025-08-07T21:08:03Z".toList = none ↔ "2025-08-07T21:08:03Z".toList = []) ∧
    (downloadBlobQueryParam "2025-08-07T21:08:03Z".toList = some BlobQueryParam.versionId ↔
      ("2025-08-07T21:08:03Z".toList ≠ [] ∧ 10 < "2025-08-07T21:08:03Z".toList.length ∧
        "2025-08-07T21:08:03Z".toList.get? 10 = some 'T')) ∧
    (downloadBlobQueryParam "2025-08-07T21:08:03Z".toList = some BlobQueryParam.snapshot ↔
      ("2025-08-07T21:08:03Z".toList ≠ [] ∧ ¬(10 < "2025-08-07T21:08:03Z".toList.length ∧
        "2025-08-07T21:08:03Z".toList.get? 10 = some 'T'))) :=
  downloadBlobQueryParam_spec "2025-08-07T21:08:03Z".toList

/-- C10: a blob with a non-empty `VersionId` whose `IsCurrentVersion` is
absent or false is reported deleted by `Blob.IsDeleted`, regardless of the
blob-level `Deleted` flag and of `Properties.DeletedTime`. -/
theorem blob_versioned_noncurrent_isDeleted (b : Blob)
    (hv : b.versionId ≠ "")
    (hc : b.isCurrentVersion = none ∨ b.isCurrentVersion = some false) :
    b.IsDeleted = true := by
  unfold Blob.IsDeleted
  by_cases hd : b.deleted
  · simp [hd]
  · by_cases ht : b.properties.deletedTime ≠ ""
    · simp [hd, ht]
    · simp [hd, ht, hv, hc]

/-- C10 witness: a concrete versioned blob with `Deleted = false`, empty
`DeletedTime` and absent `IsCurrentVersion` is reported deleted. -/
theorem blob_versioned_noncurrent_isDeleted_witness :
    Blob.IsDeleted
      { name := "report.pdf", versionId := "2025-08-07T21:08:03.6678148Z",
        isCurrentVersion := none, deleted := false } = true :=
  blob_versioned_noncurrent_isDeleted
    { name := "report.pdf", versionId := "2025-08-07T21:08:03.6678148Z",
      isCurrentVersion := none, deleted := false }
    (by decide) (Or.inl rfl)

/-! ## Streaming transfer engine (`pkg/ui/app.go`) -/

/-- Error component of one `Read` call on the remote stream: end of file or a
transport error. -/
inductive ReadFailure
  | eof
  | other (msg : String)
deriving DecidableEq

/-- One result of a `Read` call on the remote byte stream: the bytes
delivered (`n = data.length`) together with an optional error, mirroring the
Go `(n, err)` pair — `io.Reader` may deliver bytes and an error in the same
call.  A stream is a list of such results; once the list is exhausted every
further read returns `(0, io.EOF)`. -/
structure ReadOutcome where
  data : List Nat := []
  failure : Option ReadFailure := none
deriving DecidableEq

/-- One outcome of a `Write` call on the local sink: how many of the offered
bytes the sink actually persisted, and the error it returned.  The Go code
discards the count returned by `Write` and looks only at the error
(`pkg/ui/app.go`, lines 1069 and 1353), so a short or failed write still
leaves the transfer counter advanced by the bytes read.  A writer is a list
of such outcomes, consumed one per `Write` call; once the list is exhausted
every further write persists everything and returns no error. -/
structure WriteOutcome where
  accepted : Nat := 0
  failure : Option String := none
deriving DecidableEq

/-- The open reader/writer pair of one transfer: the remaining read results
of the remote stream, the pending write outcomes of the local sink, and the
bytes actually persisted in the sink so far. -/
structure Handles where
  src : List ReadOutcome
  wr : List WriteOutcome
  sink : List Nat
deriving DecidableEq

/-- The shared one-chunk fragment of both step engines (`pkg/ui/app.go`,
lines 1063–1073 and 1350–1357): read one result; when bytes were read, write
them to the sink — the sink persists as many bytes as its next write outcome
accepts, and since the code checks `werr != nil && err == nil`, a write error
is kept only when the read reported none.  Returns the advanced handles, the
byte count `n` by which the engines advance their cumulative counters (the
bytes read, not the bytes written), and the combined error. -/
def transferChunk (h : Handles) : Handles × Nat × Option ReadFailure :=
  let read := match h.src with
    | [] => (({ data := [], failure := some ReadFailure.eof } : ReadOutcome), ([] : List ReadOutcome))
    | r :: rest => (r, rest)
  let n := read.1.data.length
  if 0 < n then
    let w := match h.wr with
      | [] => (({ accepted := n, failure := none } : WriteOutcome), ([] : List WriteOutcome))
      | w0 :: ws => (w0, ws)
    let h1 : Handles := { src := read.2, wr := w.2,
                          sink := h.sink ++ read.1.data.take w.1.accepted }
    let err1 : Option ReadFailure := match read.1.failure with
      | none =>
        (match w.1.failure with
         | some we => some (ReadFailure.other we)
         | none => none)
      | some f => some f
    (h1, n, err1)
  else
    ({ h with src := read.2 }, 0, read.1.failure)

/-- The state a single-file download carries between steps: the consumer's
cancellation flag, the cumulative byte counter fed back from the previous
progress message (`m.singleDownloadBytesRead`), and the open handles. -/
structure SingleState where
  cancelled : Bool
  bytesRead : Nat
  handles : Handles
deriving DecidableEq

/-- The `SingleDownloadProgressMsg` fields relevant to the step protocol
(`pkg/ui/app.go`, lines 959–966): cumulative bytes, terminal flag, error. -/
structure SingleMsg where
  bytesRead : Nat
  done : Bool
  err : Option String
deriving DecidableEq

/-- The body of `singleDownloadStep` from `pkg/ui/app.go` (lines 1050–1096):
if cancellation was requested, report `done = true` with no error and touch
nothing; otherwise transfer one chunk and advance the cumulative count by the
bytes read — `newBytesRead = currentBytes + int64(n)` at line 1072, not the
bytes the sink accepted — and terminate on end of file (reported without
error) or on a read or write error (reported with that error). -/
def singleDownloadStep (st : SingleState) : SingleState × SingleMsg :=
  if st.cancelled then
    (st, { bytesRead := st.bytesRead, done := true, err := none })
  else
    let t := transferChunk st.handles
    let bytes1 := st.bytesRead + t.2.1
    let st1 : SingleState := { st with handles := t.1, bytesRead := bytes1 }
    match t.2.2 with
    | none => (st1, { bytesRead := bytes1, done := false, err := none })
    | some ReadFailure.eof => (st1, { bytesRead := bytes1, done := true, err := none })
    | some (ReadFailure.other e) => (st1, { bytesRead := bytes1, done := true, err := some e })

/-- The consumer's driving loop for a single download: on every non-terminal
progress message the `SingleDownloadProgressMsg` branch of `AppModel.Update`
immediately issues the next step (`pkg/ui/app.go`, line 484), so the engine
is stepped until `done = true`.  `fuel` bounds the number of steps; the
collected progress messages and the final state are returned. -/
def runSingle : Nat → SingleState → List SingleMsg × SingleState
  | 0, st => ([], st)
  | fuel + 1, st =>
    let p := singleDownloadStep st
    if p.2.done then ([p.2], p.1)
    else
      let q := runSingle fuel p.1
      (p.2 :: q.1, q.2)

/-- With a sink whose writes all succeed (an empty write-outcome script, so
every write persists everything), one chunk transfer grows the sink by
exactly the bytes read, keeps the write script clean, and consumes one read
result unless the stream already ended. -/
theorem transferChunk_clean (h : Handles) (hw : h.wr = []) :
    (transferChunk h).1.wr = [] ∧
    (transferChunk h).1.sink.length = h.sink.length + (transferChunk h).2.1 ∧
    ((transferChunk h).2.2 = none → (transferChunk h).1.src.length + 1 = h.src.length) := by
  rcases hs : h.src with _ | ⟨r, rest⟩
  · simp [transferChunk, hs, hw]
  · by_cases hn : 0 < r.data.length
    · rcases hf : r.failure with _ | f
      · simp [transferChunk, hs, hn, hw, hf, List.take_length]
      · simp [transferChunk, hs, hn, hw, hf, List.take_length]
    · simp [transferChunk, hs, hn, hw]

/-- One step under a clean sink preserves the byte-accounting invariant: the
reported cumulative count equals the new state's count, which equals the
bytes persisted in the sink; a non-terminal step consumes exactly one read
result; the step changes neither the cancellation flag nor the clean write
script. -/
theorem singleDownloadStep_invariant (st : SingleState)
    (h : st.bytesRead = st.handles.sink.length) (hw : st.handles.wr = []) :
    (singleDownloadStep st).1.bytesRead = (singleDownloadStep st).1.handles.sink.length ∧
    (singleDownloadStep st).2.bytesRead = (singleDownloadStep st).1.bytesRead ∧
    (singleDownloadStep st).1.cancelled = st.cancelled ∧
    (singleDownloadStep st).1.handles.wr = [] ∧
    ((singleDownloadStep st).2.done = false →
      (singleDownloadStep st).1.handles.src.length + 1 = st.handles.src.length) := by
  by_cases hc : st.cancelled
  · simp [singleDownloadStep, hc, h, hw]
  · obtain ⟨t1, t2, t3⟩ := transferChunk_clean st.handles hw
    rcases ht : (transferChunk st.handles).2.2 with _ | f
    · simp [singleDownloadStep, hc, ht, t1, t2, h, t3 ht]
    · rcases f with _ | e
      · simp [singleDownloadStep, hc, ht, t1, t2, h]
      · simp [singleDownloadStep, hc, ht, t1, t2, h]

/-- Driving an uncancelled session over a clean sink with enough fuel always
ends with a terminal message, and the cumulative byte count it reports
equals the number of bytes persisted in the sink. -/
theorem runSingle_reports_written :
    ∀ (fuel : Nat) (st : SingleState), st.cancelled = false →
      st.bytesRead = st.handles.sink.length → st.handles.wr = [] →
      st.handles.src.length < fuel →
      (runSingle fuel st).1.getLast?.map SingleMsg.bytesRead
          = some (runSingle fuel st).2.handles.sink.length ∧
      (runSingle fuel st).1.getLast?.map SingleMsg.done = some true := by
  intro fuel
  induction fuel with
  | zero => intro st _ _ _ hlt; exact absurd hlt (Nat.not_lt_zero _)
  | succ fuel ih =>
    intro st hc hinv hwr hlt
    obtain ⟨inv1, inv2, inv3, inv4, inv5⟩ := singleDownloadStep_invariant st hinv hwr
    have hstep : runSingle (fuel + 1) st =
        if (singleDownloadStep st).2.done then
          ([(singleDownloadStep st).2], (singleDownloadStep st).1)
        else
          ((singleDownloadStep st).2 :: (runSingle fuel (singleDownloadStep st).1).1,
            (runSingle fuel (singleDownloadStep st).1).2) := rfl
    by_cases hdone : (singleDownloadStep st).2.done
    · rw [hstep, if_pos hdone]
      refine ⟨?_, ?_⟩
      · simp only [List.getLast?_singleton, Option.map_some']
        rw [inv2, inv1]
      · simp only [List.getLast?_singleton, Option.map_some', hdone]
    · have hsrc := inv5 (Bool.not_eq_true _ ▸ hdone)
      have hlt2 : (singleDownloadStep st).1.handles.src.length < fuel := by omega
      have hrec := ih (singleDownloadStep st).1 (by rw [inv3, hc]) inv1 inv4 hlt2
      rw [hstep, if_neg hdone]
      rcases hq : (runSingle fuel (singleDownloadStep st).1).1 with _ | ⟨x, xs⟩
      · rw [hq] at hrec; simp at hrec
      · rw [hq] at hrec
        simpa [List.getLast?_cons_cons] using hrec

/-! ## Single-download handle lifecycle (`pkg/ui/app.go`) -/

/-- The fields of `AppModel` that govern a single download's handles and
cancellation, instrumented with counters for every `Close` call on the two
underlying handle objects.  `readerOpen`/`writerOpen` mirror the Go pointers
`m.singleDownloadReader`/`m.singleDownloadWriter` being non-nil;
`readerCloses`/`writerCloses` count the `Close` calls issued on the objects
they point to. -/
structure SingleSession where
  state : SingleState
  readerOpen : Bool
  writerOpen : Bool
  readerCloses : Nat
  writerCloses : Nat
deriving DecidableEq

/-- The ESC branch of the single-download progress modal in `AppModel.Update`
(`pkg/ui/app.go`, lines 264–274): set the cancellation flag and, if the
reader pointer is non-nil, call `Close` on it while keeping the pointer set
(the source explicitly does not nil it). -/
def escCancelSingle (s : SingleSession) : SingleSession :=
  { s with state := { s.state with cancelled := true },
           readerCloses := if s.readerOpen then s.readerCloses + 1 else s.readerCloses }

/-- `singleDownloadStep` as seen from the whole session (`pkg/ui/app.go`,
lines 1027–1097): if either handle pointer is nil the step reports a terminal
initialization error; otherwise it behaves as `singleDownloadStep`.  The step
itself never calls `Close` on either handle. -/
def sessionStep (s : SingleSession) : SingleSession × SingleMsg :=
  if s.readerOpen && s.writerOpen then
    let p := singleDownloadStep s.state
    ({ s with state := p.1 }, p.2)
  else
    (s, { bytesRead := s.state.bytesRead, done := true,
          err := some "download not properly initialized" })

/-- The cleanup on `msg.Done` in the `SingleDownloadProgressMsg` branch of
`AppModel.Update` (`pkg/ui/app.go`, lines 442–451): close and clear each
handle pointer that is still set. -/
def updateSingleDone (s : SingleSession) : SingleSession :=
  let s1 := if s.readerOpen then
      { s with readerCloses := s.readerCloses + 1, readerOpen := false }
    else s
  if s1.writerOpen then
    { s1 with writerCloses := s1.writerCloses + 1, writerOpen := false }
  else s1

/-- A mid-download session: both handles open, never closed, 5 bytes already
transferred, one chunk still pending on the remote stream. -/
def midDownloadSession : SingleSession :=
  { state := { cancelled := false, bytesRead := 5,
               handles := { src := [{ data := [1, 2, 3], failure := none }],
                            wr := [], sink := [9, 9, 9, 9, 9] } },
    readerOpen := true, writerOpen := true, readerCloses := 0, writerCloses := 0 }

/-- C5 (code divergence, evaluated): cancelling between steps via ESC and
then performing the next step and the processing of its message.  The step
does return `done = true` with a nil error, but at the moment its message is
returned no handle has been released by the step itself — the reader's only
`Close` so far came from the ESC handler and the writer is still open — and
after the consumer processes the done message the reader has been closed a
second time.  The claim requires both handles released exactly once,
synchronously inside the step. -/
theorem singleCancel_release_divergence :
    (sessionStep (escCancelSingle midDownloadSession)).2.done = true ∧
    (sessionStep (escCancelSingle midDownloadSession)).2.err = none ∧
    (sessionStep (escCancelSingle midDownloadSession)).1.readerCloses = 1 ∧
    (sessionStep (escCancelSingle midDownloadSession)).1.writerCloses = 0 ∧
    (sessionStep (escCancelSingle midDownloadSession)).1.writerOpen = true ∧
    (updateSingleDone (sessionStep (escCancelSingle midDownloadSession)).1).readerCloses = 2 ∧
    (updateSingleDone (sessionStep (escCancelSingle midDownloadSession)).1).writerCloses = 1 := by
  decide

/-! ## Bulk transfer coordinator (`pkg/ui/app.go`) -/

/-- One queued file of a bulk download: its name, the read results its remote
stream will deliver, the write outcomes its local sink will produce, its
advertised content length, and an optional error raised while opening the
remote stream or creating the local file. -/
structure BulkFile where
  name : String
  src : List ReadOutcome := []
  wr : List WriteOutcome := []
  contentLength : Nat := 0
  openFailure : Option String := none
deriving DecidableEq

/-- The `BulkDownloadProgressMsg` record (`pkg/ui/app.go`, lines 975–983). -/
structure BulkMsg where
  current : Nat
  total : Nat
  file : String
  bytes : Nat
  totalB : Nat
  done : Bool
  err : Option String
deriving DecidableEq

/-- The bulk-download fields of `AppModel` (`pkg/ui/app.go`, lines 78–87). -/
structure BulkState where
  queue : List BulkFile
  total : Nat
  current : Nat
  successes : Nat
  failures : List String
  cancelRequested : Bool
  bytesRead : Nat
  totalBytes : Nat
  isBulkDownloading : Bool
deriving DecidableEq

/-- The final summary shown when a bulk download ends (`pkg/ui/app.go`,
lines 524–541): the Downloaded count, the failure list, and the
"Remaining skipped" count (`msg.Total - msg.Current`). -/
structure BulkSummary where
  downloaded : Nat
  failedFiles : List String
  skipped : Nat
deriving DecidableEq

/-- The command returned by the `BulkDownloadProgressMsg` branch of
`AppModel.Update`: show the summary, start the next file, or re-step the
current file (`bulkDownloadStep`, which the source implements as a no-op
returning nil). -/
inductive BulkCmd
  | finished (s : BulkSummary)
  | nextFile
  | stepCurrent
deriving DecidableEq

/-- `bulkDownloadStepWithHandles` from `pkg/ui/app.go` (lines 1335–1383): if
cancellation was requested, close both handles and report a terminal message
with no error; otherwise transfer one chunk — `m.bulkCurrentBytesRead`
advances by the bytes read (line 1356) while the sink keeps only what its
write accepted, and the count returned by `Write` is discarded — and
terminate on end of file (no error) or on a read or write error (that
error). -/
def bulkDownloadStepWithHandles (m : BulkState) (name : String) (h : Handles) :
    (BulkState × Handles) × BulkMsg :=
  if m.cancelRequested then
    ((m, h), { current := m.current, total := m.total, file := name,
               bytes := m.bytesRead, totalB := m.totalBytes, done := true, err := none })
  else
    let t := transferChunk h
    let m1 := { m with bytesRead := m.bytesRead + t.2.1 }
    match t.2.2 with
    | none =>
      ((m1, t.1), { current := m1.current, total := m1.total, file := name,
                    bytes := m1.bytesRead, totalB := m1.totalBytes, done := false, err := none })
    | some ReadFailure.eof =>
      ((m1, t.1), { current := m1.current, total := m1.total, file := name,
                    bytes := m1.bytesRead, totalB := m1.totalBytes, done := true, err := none })
    | some (ReadFailure.other e) =>
      ((m1, t.1), { current := m1.current, total := m1.total, file := name,
                    bytes := m1.bytesRead, totalB := m1.totalBytes, done := true, err := some e })

/-- `downloadNextFile` from `pkg/ui/app.go` (lines 1245–1332): dequeue the
front item and bump `bulkDownloadCurrent`; on an open failure report a
terminal message with that error; otherwise reset the byte counters and
perform the first `bulkDownloadStepWithHandles` call.  The advanced handles
stay captured in the source's one-shot closure and are never stepped again
by the coordinator (`bulkDownloadStep` is nil), so they are dropped here. -/
def downloadNextFile (m : BulkState) : BulkState × Option BulkMsg :=
  match m.queue with
  | [] => (m, none)
  | f :: rest =>
    let m1 := { m with queue := rest, current := m.current + 1 }
    match f.openFailure with
    | some e =>
      (m1, some { current := m1.current, total := m1.total, file := f.name,
                  bytes := 0, totalB := 0, done := true, err := some e })
    | none =>
      let m2 := { m1 with bytesRead := 0, totalBytes := f.contentLength }
      let p := bulkDownloadStepWithHandles m2 f.name { src := f.src, wr := f.wr, sink := [] }
      (p.1.1, some p.2)

/-- The `BulkDownloadProgressMsg` branch of `AppModel.Update`
(`pkg/ui/app.go`, lines 496–551): update the byte counters; a terminal
message with an error appends the file to the failure list, a terminal
message without an error increments the success counter; then, if the
message is terminal and either cancellation was requested or the file index
reached the total, build the final summary with
`remaining = msg.Total - msg.Current`; a terminal message otherwise starts
the next file; a non-terminal message re-steps the current file. -/
def updateBulkProgress (m : BulkState) (msg : BulkMsg) : BulkState × BulkCmd :=
  let m1 := { m with bytesRead := msg.bytes, totalBytes := msg.totalB }
  let m2 := if msg.err.isSome ∧ msg.done then { m1 with failures := m1.failures ++ [msg.file] }
    else if msg.done ∧ msg.err.isNone then { m1 with successes := m1.successes + 1 }
    else m1
  if msg.done then
    if m2.cancelRequested ∨ msg.total ≤ msg.current then
      ({ m2 with isBulkDownloading := false },
        BulkCmd.finished { downloaded := m2.successes, failedFiles := m2.failures,
                           skipped := msg.total - msg.current })
    else
      (m2, BulkCmd.nextFile)
  else
    (m2, BulkCmd.stepCurrent)

/-- `startBulkDownload` from `pkg/ui/app.go` (lines 1212–1242): reset the
bulk state, enqueue the files, and start the first download (with an
immediate empty terminal message when the queue is empty). -/
def startBulkDownload (files : List BulkFile) : BulkState × Option BulkMsg :=
  let m : BulkState := { queue := files, total := files.length, current := 0,
                         successes := 0, failures := [], cancelRequested := false,
                         bytesRead := 0, totalBytes := 0, isBulkDownloading := true }
  if files.length = 0 then
    ({ m with isBulkDownloading := false },
      some { current := 0, total := 0, file := "", bytes := 0, totalB := 0,
             done := true, err := none })
  else
    downloadNextFile m

/-- The ESC branch of the bulk progress modal (`pkg/ui/app.go`,
lines 258–263): request cancellation. -/
def escCancelBulk (m : BulkState) : BulkState :=
  { m with cancelRequested := true }

/-- Drives the bulk download message loop: each pending message is processed
by `updateBulkProgress`; immediately after the `cancelAt`-th terminal message
has been processed the ESC cancellation request is applied (modelling the
user pressing ESC at that point); the commands returned by the handler are
then executed.  `bulkDownloadStep` is nil in the source, so a `stepCurrent`
command stalls the loop (modelled by `none`). -/
def driveBulk : Nat → BulkState → BulkMsg → Nat → Option BulkSummary
  | 0, _, _, _ => none
  | fuel + 1, m, msg, cancelAt =>
    let p := updateBulkProgress m msg
    let fire := msg.done ∧ cancelAt = 1
    let cancelAt1 := if msg.done then cancelAt - 1 else cancelAt
    let m1 := if fire then escCancelBulk p.1 else p.1
    match p.2 with
    | BulkCmd.finished s => some s
    | BulkCmd.stepCurrent => none
    | BulkCmd.nextFile =>
      match downloadNextFile m1 with
      | (_, none) => none
      | (m2, some msg1) => driveBulk fuel m2 msg1 cancelAt1

/-- A whole bulk run over `files`, with the ESC cancellation request arriving
right after the `cancelAt`-th item's terminal message is processed. -/
def runBulkScenario (files : List BulkFile) (cancelAt : Nat) : Option BulkSummary :=
  match startBulkDownload files with
  | (_, none) => none
  | (m, some msg) => driveBulk (files.length + 2) m msg cancelAt

/-- Five single-chunk files whose streams deliver their bytes together with
end of file, so each completes in one step. -/
def fiveSmallFiles : List BulkFile :=
  [ { name := "f1", src := [{ data := [1], failure := some ReadFailure.eof }], contentLength := 1 },
    { name := "f2", src := [{ data := [2], failure := some ReadFailure.eof }], contentLength := 1 },
    { name := "f3", src := [{ data := [3], failure := some ReadFailure.eof }], contentLength := 1 },
    { name := "f4", src := [{ data := [4], failure := some ReadFailure.eof }], contentLength := 1 },
    { name := "f5", src := [{ data := [5], failure := some ReadFailure.eof }], contentLength := 1 } ]

/-- C4 (code divergence, evaluated): cancelling a five-item batch right after
the second item completes.  Item 3 is dequeued, its streams are opened, and
its cancelled step reports `done = true, err = nil`, which the progress
handler counts as a success; the summary therefore reports 3 downloaded, no
failures and only `5 - 3 = 2` skipped, where the claim requires at most 2
succeeded and 3 skipped. -/
theorem bulkCancel_summary_divergence :
    runBulkScenario fiveSmallFiles 2 =
      some { downloaded := 3, failedFiles := [], skipped := 2 } := by
  decide

/-! ## Byte accounting of the two step engines -/

/-- Drives `bulkDownloadStepWithHandles` for one file until it reports a
terminal message, collecting the progress messages.  In the source this loop
never runs past the first chunk — `bulkDownloadStep` (`pkg/ui/app.go`,
lines 1386–1391) returns nil — so this driver supplies the repeated stepping
that the session-level byte-accounting property quantifies over. -/
def runBulkFile : Nat → BulkState → Handles → String → List BulkMsg × (BulkState × Handles)
  | 0, m, h, _ => ([], (m, h))
  | fuel + 1, m, h, name =>
    let p := bulkDownloadStepWithHandles m name h
    if p.2.done then ([p.2], p.1)
    else
      let q := runBulkFile fuel p.1.1 p.1.2 name
      (p.2 :: q.1, q.2)

/-- One bulk step under a clean sink preserves the byte-accounting
invariant, mirroring `singleDownloadStep_invariant` for the bulk engine. -/
theorem bulkStep_invariant (m : BulkState) (name : String) (h : Handles)
    (hc : m.cancelRequested = false)
    (hb : m.bytesRead = h.sink.length) (hw : h.wr = []) :
    (bulkDownloadStepWithHandles m name h).1.1.bytesRead
        = (bulkDownloadStepWithHandles m name h).1.2.sink.length ∧
    (bulkDownloadStepWithHandles m name h).2.bytes
        = (bulkDownloadStepWithHandles m name h).1.1.bytesRead ∧
    (bulkDownloadStepWithHandles m name h).1.1.cancelRequested = false ∧
    (bulkDownloadStepWithHandles m name h).1.2.wr = [] ∧
    ((bulkDownloadStepWithHandles m name h).2.done = false →
      (bulkDownloadStepWithHandles m name h).1.2.src.length + 1 = h.src.length) := by
  obtain ⟨t1, t2, t3⟩ := transferChunk_clean h hw
  rcases ht : (transferChunk h).2.2 with _ | f
  · simp [bulkDownloadStepWithHandles, hc, ht, t1, t2, hb, t3 ht]
  · rcases f with _ | e
    · simp [bulkDownloadStepWithHandles, hc, ht, t1, t2, hb]
    · simp [bulkDownloadStepWithHandles, hc, ht, t1, t2, hb]

/-- Driving one bulk file under a clean sink with enough fuel ends with a
terminal message whose cumulative count equals the bytes persisted. -/
theorem runBulkFile_reports_written :
    ∀ (fuel : Nat) (m : BulkState) (h : Handles) (name : String),
      m.cancelRequested = false → m.bytesRead = h.sink.length → h.wr = [] →
      h.src.length < fuel →
      (runBulkFile fuel m h name).1.getLast?.map BulkMsg.bytes
          = some (runBulkFile fuel m h name).2.2.sink.length ∧
      (runBulkFile fuel m h name).1.getLast?.map BulkMsg.done = some true := by
  intro fuel
  induction fuel with
  | zero => intro m h name _ _ _ hlt; exact absurd hlt (Nat.not_lt_zero _)
  | succ fuel ih =>
    intro m h name hc hb hw hlt
    obtain ⟨inv1, inv2, inv3, inv4, inv5⟩ := bulkStep_invariant m name h hc hb hw
    have hstep : runBulkFile (fuel + 1) m h name =
        if (bulkDownloadStepWithHandles m name h).2.done then
          ([(bulkDownloadStepWithHandles m name h).2], (bulkDownloadStepWithHandles m name h).1)
        else
          ((bulkDownloadStepWithHandles m name h).2 ::
              (runBulkFile fuel (bulkDownloadStepWithHandles m name h).1.1
                (bulkDownloadStepWithHandles m name h).1.2 name).1,
            (runBulkFile fuel (bulkDownloadStepWithHandles m name h).1.1
              (bulkDownloadStepWithHandles m name h).1.2 name).2) := rfl
    by_cases hdone : (bulkDownloadStepWithHandles m name h).2.done
    · rw [hstep, if_pos hdone]
      refine ⟨?_, ?_⟩
      · simp only [List.getLast?_singleton, Option.map_some']
        rw [inv2, inv1]
      · simp only [List.getLast?_singleton, Option.map_some', hdone]
    · have hsrc := inv5 (Bool.not_eq_true _ ▸ hdone)
      have hlt2 : (bulkDownloadStepWithHandles m name h).1.2.src.length < fuel := by omega
      have hrec := ih (bulkDownloadStepWithHandles m name h).1.1
        (bulkDownloadStepWithHandles m name h).1.2 name inv3 inv1 inv4 hlt2
      rw [hstep, if_neg hdone]
      rcases hq : (runBulkFile fuel (bulkDownloadStepWithHandles m name h).1.1
          (bulkDownloadStepWithHandles m name h).1.2 name).1 with _ | ⟨x, xs⟩
      · rw [hq] at hrec; simp at hrec
      · rw [hq] at hrec
        simpa [List.getLast?_cons_cons] using hrec

/-- A fresh single-download session whose sink persists only 1 of the 3
bytes of the first chunk and reports a write error, as a local sink may
(`LocalIOFailure`). -/
def failingWriteSession : SingleState :=
  { cancelled := false, bytesRead := 0,
    handles := { src := [{ data := [1, 2, 3], failure := none }],
                 wr := [{ accepted := 1, failure := some "disk full" }],
                 sink := [] } }

/-- C6 counterexample: driving `failingWriteSession` until `done = true`
reaches the terminal message in one step, and that message reports 3
cumulative bytes — the bytes read, which `pkg/ui/app.go` line 1072 adds
while discarding the count returned by `Write` — although only 1 byte was
actually written to the sink: the reported total differs from the bytes
written. -/
theorem transfer_report_exceeds_written_on_write_failure :
    (runSingle 2 failingWriteSession).1.getLast?.map SingleMsg.bytesRead = some 3 ∧
    (runSingle 2 failingWriteSession).2.handles.sink.length = 1 ∧
    (runSingle 2 failingWriteSession).1.getLast?.map SingleMsg.done = some true ∧
    (runSingle 2 failingWriteSession).1.getLast?.map SingleMsg.bytesRead ≠
      some (runSingle 2 failingWriteSession).2.handles.sink.length := by
  decide

/-- The bulk coordinator context at the start of one file:
`downloadNextFile` has just reset the byte counter to zero and cancellation
has not been requested; every other field is arbitrary. -/
def bulkFileContext (queue : List BulkFile) (tot cur nsucc totB : Nat)
    (fails : List String) (ib : Bool) : BulkState :=
  { queue := queue, total := tot, current := cur, successes := nsucc,
    failures := fails, cancelRequested := false, bytesRead := 0,
    totalBytes := totB, isBulkDownloading := ib }

/-- C6 amended: provided every sink write succeeds in full, driving a fresh
transfer session by repeated step calls until `done = true` reaches a
terminal message whose cumulative reported byte count equals the total
number of bytes actually written to the sink — for the single-file engine
and for the bulk per-file engine alike, over every source stream (in
particular the zero-length stream and streams of many 32 KiB chunks) and
every bulk coordinator context.  When a write fails or writes short the
engines still count the bytes read, see the counterexample. -/
theorem transfer_bytes_reported_eq_written (src : List ReadOutcome) (name : String)
    (queue : List BulkFile) (tot cur nsucc totB : Nat) (fails : List String) (ib : Bool) :
    ((runSingle (src.length + 1) ⟨false, 0, ⟨src, [], []⟩⟩).1.getLast?.map SingleMsg.bytesRead
        = some (runSingle (src.length + 1) ⟨false, 0, ⟨src, [], []⟩⟩).2.handles.sink.length ∧
      (runSingle (src.length + 1) ⟨false, 0, ⟨src, [], []⟩⟩).1.getLast?.map SingleMsg.done
        = some true) ∧
    ((runBulkFile (src.length + 1) (bulkFileContext queue tot cur nsucc totB fails ib)
          ⟨src, [], []⟩ name).1.getLast?.map BulkMsg.bytes
        = some ((runBulkFile (src.length + 1) (bulkFileContext queue tot cur nsucc totB fails ib)
          ⟨src, [], []⟩ name).2.2.sink.length) ∧
      (runBulkFile (src.length + 1) (bulkFileContext queue tot cur nsucc totB fails ib)
          ⟨src, [], []⟩ name).1.getLast?.map BulkMsg.done = some true) :=
  ⟨runSingle_reports_written (src.length + 1) ⟨false, 0, ⟨src, [], []⟩⟩ rfl rfl rfl
      (Nat.lt_succ_self _),
    runBulkFile_reports_written (src.length + 1)
      (bulkFileContext queue tot cur nsucc totB fails ib) ⟨src, [], []⟩ name rfl rfl rfl
      (Nat.lt_succ_self _)⟩

/-! ## Discovery scanner (`pkg/scanner/scanner.go`)

The scanner starts one goroutine per account name, gated by a semaphore; each
goroutine increments a mutex-guarded progress counter, reads it back under
the mutex, and sends events on the shared results channel.  The mutex makes
each increment and each read atomic, and each channel send is atomic, so an
execution of the scanner is an interleaving of the workers' sequences of
these atomic actions.  `ScanFinished` is sent by the spawning goroutine after
`wg.Wait()`, i.e. after every worker action. -/

/-- The `ResultType` enumeration of `pkg/scanner/scanner.go` (lines 10–17). -/
inductive ResultType
  | accountFound
  | containerFound
  | scanFinished
  | progressUpdate
deriving DecidableEq

/-- The `Result` struct of `pkg/scanner/scanner.go` (lines 19–26); fields not
set by a given send keep their Go zero values. -/
structure Result where
  type : ResultType
  accountName : String := ""
  containerName : String := ""
  isPublic : Bool := false
  progress : Nat := 0
  total : Nat := 0
deriving DecidableEq

/-- The probe collaborator (`azure.Client`): account and container checks as
pure functions of the names (the claims quantify over their outcomes). -/
structure Probes where
  checkAccount : String → Bool
  checkContainer : String → String → Bool × Bool

/-- One atomic action of a scanner worker: a mutex-guarded counter increment,
a mutex-guarded read of the counter into the worker-local `current` variable,
the channel send of a `ProgressUpdate` carrying that local value, or the
channel send of a fixed non-progress result. -/
inductive Action
  | incr
  | readCounter
  | sendProgress
  | send (r : Result)
deriving DecidableEq

/-- `scanContainers` from `pkg/scanner/scanner.go` (lines 108–126) as a
sequence of atomic actions: for each container name, increment and read the
shared counter, send a `ProgressUpdate`, and — when the container probe
reports existence — send a `ContainerFound` carrying the probe's public flag. -/
def containerActions (p : Probes) (accountName : String) : List String → List Action
  | [] => []
  | c :: rest =>
    Action.incr :: Action.readCounter :: Action.sendProgress ::
    ((if (p.checkContainer accountName c).1 then
        [Action.send { type := ResultType.containerFound, accountName := accountName,
                       containerName := c, isPublic := (p.checkContainer accountName c).2 }]
      else []) ++ containerActions p accountName rest)

/-- The worker goroutine body of `Scanner.Start` (`pkg/scanner/scanner.go`,
lines 81–100) as a sequence of atomic actions: increment and read the shared
counter, send a `ProgressUpdate`, and — when the account probe succeeds —
send `AccountFound` and then run `scanContainers`. -/
def workerActions (p : Probes) (containers : List String) (accountName : String) : List Action :=
  Action.incr :: Action.readCounter :: Action.sendProgress ::
  (if p.checkAccount accountName then
     Action.send { type := ResultType.accountFound, accountName := accountName } ::
       containerActions p accountName containers
   else [])

/-- The shared execution state: the mutex-guarded progress counter, each
worker's local `current` variable (indexed by worker id), and the sequence of
results sent on the channel so far. -/
structure ExecState where
  counter : Nat
  locals : Nat → Nat
  stream : List Result

/-- Effect of one atomic action performed by worker `wid`. -/
def execAction (total : Nat) (st : ExecState) (wid : Nat) : Action → ExecState
  | Action.incr => { st with counter := st.counter + 1 }
  | Action.readCounter =>
      { st with locals := fun i => if i = wid then st.counter else st.locals i }
  | Action.sendProgress =>
      { st with stream := st.stream ++
          [{ type := ResultType.progressUpdate, progress := st.locals wid, total := total }] }
  | Action.send r => { st with stream := st.stream ++ [r] }

/-- Executes a tagged action sequence (one concrete interleaving of the
workers). -/
def runTagged (total : Nat) : ExecState → List (Nat × Action) → ExecState
  | st, [] => st
  | st, (wid, a) :: l => runTagged total (execAction total st wid a) l

/-- Checks that a tagged action sequence is an interleaving of the given
per-worker traces: each step consumes the front action of the named worker's
remaining trace, and at the end every trace is exhausted. -/
def isInterleaving : List (List Action) → List (Nat × Action) → Bool
  | traces, [] => traces.all List.isEmpty
  | traces, (wid, a) :: l =>
    match traces.getD wid [] with
    | [] => false
    | b :: rest => if a = b then isInterleaving (traces.set wid rest) l else false

/-- The per-worker traces of one scan: one worker per account name. -/
def scanTraces (p : Probes) (accounts containers : List String) : List (List Action) :=
  accounts.map (workerActions p containers)

/-- A schedule is valid for a scan when it is an interleaving of the scan's
worker traces. -/
def validSchedule (p : Probes) (accounts containers : List String)
    (l : List (Nat × Action)) : Bool :=
  isInterleaving (scanTraces p accounts containers) l

/-- Initial execution state: counter zero, all locals zero, empty channel. -/
def initExec : ExecState := { counter := 0, locals := fun _ => 0, stream := [] }

/-- The `ScanFinished` result sent after `wg.Wait()` (`pkg/scanner/scanner.go`,
line 104). -/
def finishedResult : Result := { type := ResultType.scanFinished }

/-- The full event stream of one scan under the given schedule: the
interleaved worker sends followed by the single `ScanFinished`; the channel
is closed afterwards (`defer close`).  `total` is
`len(AccountNames) * len(ContainerNames)` (`pkg/scanner/scanner.go`, line 55). -/
def scanStream (p : Probes) (accounts containers : List String)
    (l : List (Nat × Action)) : List Result :=
  (runTagged (accounts.length * containers.length) initExec l).stream ++ [finishedResult]

/-- The `completed` values carried by the `ProgressUpdate` events of a
stream, in order. -/
def progressValues (rs : List Result) : List Nat :=
  rs.filterMap fun r => if r.type = ResultType.progressUpdate then some r.progress else none

/-- The `total` values carried by the `ProgressUpdate` events of a stream. -/
def progressTotals (rs : List Result) : List Nat :=
  rs.filterMap fun r => if r.type = ResultType.progressUpdate then some r.total else none

/-- Decides that a list of naturals is non-decreasing. -/
def nondecb : List Nat → Bool
  | [] => true
  | [_] => true
  | a :: b :: l => decide (a ≤ b) && nondecb (b :: l)

/-- The canonical sequential schedule: worker 0 runs its whole trace, then
worker 1, and so on (this is how the scanner executes with `Concurrency = 1`). -/
def seqSched : List (List Action) → List (Nat × Action)
  | [] => []
  | t :: rest => t.map (fun a => (0, a)) ++ (seqSched rest).map (fun x => (x.1 + 1, x.2))

/-- Probe world in which every account exists and every container exists and
is public. -/
def allPublicProbes : Probes := ⟨fun _ => true, fun _ _ => (true, true)⟩

/-- Probe world in which every account exists and every container exists but
is private (403). -/
def privateProbes : Probes := ⟨fun _ => true, fun _ _ => (true, false)⟩

/-- Probe world in which no account exists. -/
def noAccountProbes : Probes := ⟨fun _ => false, fun _ _ => (false, false)⟩

/-- C1 counterexample: in a scan of one account with one existing-but-private
container (probe reports `exists = true, public = false`), a `ContainerFound`
event for that container does appear on the event stream (with
`IsPublic = false`), under the sequential schedule.  The claim asserts no
event is emitted for an existing but not anonymously listable container. -/
theorem containerFound_emitted_for_private_container :
    validSchedule privateProbes ["acct"] ["priv"]
        (seqSched (scanTraces privateProbes ["acct"] ["priv"])) = true ∧
    ({ type := ResultType.containerFound, accountName := "acct", containerName := "priv",
       isPublic := false } : Result) ∈
      scanStream privateProbes ["acct"] ["priv"]
        (seqSched (scanTraces privateProbes ["acct"] ["priv"])) := by
  decide

/-- C2 (code divergence, evaluated): scanning one account with two containers
(all probes succeed) under the sequential schedule.  Every `ProgressUpdate`
carries `total = 1 × 2 = 2`, but the final `ProgressUpdate` carries
`completed = 3`: the counter counts the account probe as well as the two
container probes, so it ends at `A + E·C = 3 ≠ A·C = 2`. -/
theorem progress_final_value_exceeds_total :
    validSchedule allPublicProbes ["a1"] ["c1", "c2"]
        (seqSched (scanTraces allPublicProbes ["a1"] ["c1", "c2"])) = true ∧
    progressTotals (scanStream allPublicProbes ["a1"] ["c1", "c2"]
        (seqSched (scanTraces allPublicProbes ["a1"] ["c1", "c2"]))) = [2, 2, 2] ∧
    (progressValues (scanStream allPublicProbes ["a1"] ["c1", "c2"]
        (seqSched (scanTraces allPublicProbes ["a1"] ["c1", "c2"])))).getLast? = some 3 := by
  decide

/-- C3 counterexample: two workers over two non-existing accounts; worker 0
increments and reads the counter (value 1), worker 1 then increments, reads
(value 2) and sends its `ProgressUpdate` before worker 0 sends its own, which
the mutex does not prevent because the channel send happens outside the lock
(`pkg/scanner/scanner.go`, lines 62–71).  The resulting stream carries the
completed values `[2, 1]`, which is not non-decreasing. -/
theorem progress_values_can_decrease :
    validSchedule noAccountProbes ["a1", "a2"] ["c1"]
        [(0, Action.incr), (0, Action.readCounter), (1, Action.incr),
         (1, Action.readCounter), (1, Action.sendProgress), (0, Action.sendProgress)] = true ∧
    progressValues (scanStream noAccountProbes ["a1", "a2"] ["c1"]
        [(0, Action.incr), (0, Action.readCounter), (1, Action.incr),
         (1, Action.readCounter), (1, Action.sendProgress), (0, Action.sendProgress)]) = [2, 1] ∧
    nondecb (progressValues (scanStream noAccountProbes ["a1", "a2"] ["c1"]
        [(0, Action.incr), (0, Action.readCounter), (1, Action.incr),
         (1, Action.readCounter), (1, Action.sendProgress), (0, Action.sendProgress)])) = false := by
  decide

/-- Auxiliary checker for `sendsFresh`, carrying which worker (if any)
performed a `readCounter` as the immediately preceding action. -/
def sendsFreshAux : Option Nat → List (Nat × Action) → Bool
  | _, [] => true
  | prev, (w, Action.sendProgress) :: l =>
      decide (prev = some w) && sendsFreshAux none l
  | _, (w, Action.readCounter) :: l => sendsFreshAux (some w) l
  | _, (_, Action.incr) :: l => sendsFreshAux none l
  | _, (_, Action.send r) :: l =>
      decide (r.type ≠ ResultType.progressUpdate) && sendsFreshAux none l

/-- Checks that every `sendProgress` in a tagged schedule immediately follows
the same worker's `readCounter` — no other atomic action is interleaved
between a worker's mutex-guarded read of the counter and its channel send —
and that explicit sends never carry a `ProgressUpdate`-typed result (in the
scanner they never do: progress goes through `sendProgress`).  Every
sequential schedule satisfies this. -/
def sendsFresh (l : List (Nat × Action)) : Bool := sendsFreshAux none l

/-- `progressValues` distributes over append. -/
theorem progressValues_append (rs1 rs2 : List Result) :
    progressValues (rs1 ++ rs2) = progressValues rs1 ++ progressValues rs2 := by
  simp [progressValues, List.filterMap_append]

/-- `progressValues` of a one-event stream. -/
theorem progressValues_singleton (r : Result) :
    progressValues [r] =
      if r.type = ResultType.progressUpdate then [r.progress] else [] := by
  by_cases h : r.type = ResultType.progressUpdate <;> simp [progressValues, h]

/-- Appending an upper bound to a non-decreasing list keeps it
non-decreasing. -/
theorem nondecb_append_singleton :
    ∀ (l : List Nat) (x : Nat), nondecb l = true → (∀ v ∈ l, v ≤ x) →
      nondecb (l ++ [x]) = true
  | [], x, _, _ => by simp [nondecb]
  | [a], x, _, hx => by
    have : a ≤ x := hx a (by simp)
    simp [nondecb, this]
  | a :: b :: l, x, h, hx => by
    have h1 : a ≤ b ∧ nondecb (b :: l) = true := by simpa [nondecb] using h
    have h2 := nondecb_append_singleton (b :: l) x h1.2 (fun v hv => hx v (List.mem_cons_of_mem a hv))
    simp only [List.cons_append, nondecb, Bool.and_eq_true, decide_eq_true_eq]
    exact ⟨h1.1, by simpa [List.cons_append] using h2⟩

/-- Core monotonicity invariant: running a fresh schedule preserves the facts
that every emitted completed value is bounded by the shared counter, every
worker-local read value is bounded by the counter, the emitted completed
values are non-decreasing, and a pending fresh read equals the counter. -/
theorem runTagged_mono_aux (total : Nat) :
    ∀ (l : List (Nat × Action)) (prev : Option Nat) (st : ExecState),
      sendsFreshAux prev l = true →
      (∀ v ∈ progressValues st.stream, v ≤ st.counter) →
      (∀ w, st.locals w ≤ st.counter) →
      nondecb (progressValues st.stream) = true →
      (∀ w, prev = some w → st.locals w = st.counter) →
      nondecb (progressValues (runTagged total st l).stream) = true
  | [], _, st, _, _, _, h3, _ => h3
  | (w, Action.incr) :: l, prev, st, hf, h1, h2, h3, _ => by
    have hf1 : sendsFreshAux none l = true := by simpa [sendsFreshAux] using hf
    refine runTagged_mono_aux total l none _ hf1 ?_ ?_ ?_ ?_
    · intro v hv
      exact Nat.le_succ_of_le (h1 v hv)
    · intro w2
      exact Nat.le_succ_of_le (h2 w2)
    · exact h3
    · intro w2 h; cases h
  | (w, Action.readCounter) :: l, prev, st, hf, h1, h2, h3, _ => by
    have hf1 : sendsFreshAux (some w) l = true := by simpa [sendsFreshAux] using hf
    refine runTagged_mono_aux total l (some w) _ hf1 h1 ?_ h3 ?_
    · intro w2
      by_cases hw : w2 = w <;> simp [execAction, hw, h2 w2]
    · intro w2 hw
      have h5 : w = w2 := by injection hw
      subst h5
      simp [execAction]
  | (w, Action.sendProgress) :: l, prev, st, hf, h1, h2, h3, h4 => by
    have hf0 : prev = some w ∧ sendsFreshAux none l = true := by
      simpa [sendsFreshAux] using hf
    have hlw : st.locals w = st.counter := h4 w hf0.1
    have hpv : progressValues (execAction total st w Action.sendProgress).stream
        = progressValues st.stream ++ [st.counter] := by
      simp [execAction, progressValues_append, progressValues_singleton, hlw]
    refine runTagged_mono_aux total l none _ hf0.2 ?_ h2 ?_ ?_
    · intro v hv
      rw [hpv] at hv
      rcases List.mem_append.mp hv with hv | hv
      · exact h1 v hv
      · simp at hv
        simp [execAction, hv]
    · rw [hpv]
      exact nondecb_append_singleton _ _ h3 h1
    · intro w2 h; cases h
  | (w, Action.send r) :: l, prev, st, hf, h1, h2, h3, _ => by
    have hf0 : r.type ≠ ResultType.progressUpdate ∧ sendsFreshAux none l = true := by
      simpa [sendsFreshAux] using hf
    have hpv : progressValues (execAction total st w (Action.send r)).stream
        = progressValues st.stream := by
      simp [execAction, progressValues_append, progressValues_singleton, hf0.1]
    refine runTagged_mono_aux total l none _ hf0.2 ?_ h2 ?_ ?_
    · intro v hv
      rw [hpv] at hv
      exact h1 v hv
    · rw [hpv]; exact h3
    · intro w2 h; cases h

/-- C3 amended: in every execution of the scanner in which no other atomic
action comes between a worker's counter-read and its progress send — in
particular in every sequential execution, e.g. with `Concurrency = 1` — the
`completed` values of the `ProgressUpdate` events are non-decreasing in
stream order.  (With truly concurrent workers this can fail, see the
counterexample: the send happens outside the mutex.) -/
theorem progress_values_nondecreasing_of_fresh (p : Probes)
    (accounts containers : List String) (l : List (Nat × Action))
    (hv : validSchedule p accounts containers l = true)
    (hf : sendsFresh l = true) :
    nondecb (progressValues (scanStream p accounts containers l)) = true := by
  have hrun := runTagged_mono_aux (accounts.length * containers.length) l none initExec hf
    (by intro v hv2; simp [initExec, progressValues] at hv2)
    (by intro w; simp [initExec])
    (by simp [initExec, progressValues, nondecb])
    (by intro w h; cases h)
  unfold scanStream
  rw [progressValues_append, progressValues_singleton]
  simpa [finishedResult] using hrun

/-- C3 amended witness: the sequential schedule of a one-account, two-container
scan is a valid, fresh schedule and its progress values are non-decreasing. -/
theorem progress_values_nondecreasing_of_fresh_witness :
    validSchedule allPublicProbes ["a1"] ["c1", "c2"]
        (seqSched (scanTraces allPublicProbes ["a1"] ["c1", "c2"])) = true ∧
    sendsFresh (seqSched (scanTraces allPublicProbes ["a1"] ["c1", "c2"])) = true ∧
    nondecb (progressValues (scanStream allPublicProbes ["a1"] ["c1", "c2"]
        (seqSched (scanTraces allPublicProbes ["a1"] ["c1", "c2"])))) = true :=
  ⟨by decide, by decide,
    progress_values_nondecreasing_of_fresh allPublicProbes ["a1"] ["c1", "c2"]
      (seqSched (scanTraces allPublicProbes ["a1"] ["c1", "c2"])) (by decide) (by decide)⟩

/-- Once every trace is exhausted, every index yields the empty trace. -/
theorem getD_eq_nil_of_all_isEmpty :
    ∀ (ts : List (List Action)), ts.all List.isEmpty = true → ∀ i, ts.getD i [] = []
  | [], _, i => by simp [List.getD]
  | t :: ts, h, 0 => by
    have h0 : t.isEmpty = true := by
      simp [List.all_cons] at h
      exact List.isEmpty_iff.mpr h.1
    simpa [List.getD_cons_zero] using List.isEmpty_iff.mp h0
  | t :: ts, h, i + 1 => by
    have h1 : ts.all List.isEmpty = true := by
      simp [List.all_cons] at h
      simpa [List.all_eq_true] using h.2
    simpa [List.getD_cons_succ] using getD_eq_nil_of_all_isEmpty ts h1 i

/-- Reading an index of a trace list after replacing the trace at `w`. -/
theorem getD_set_eq_ite (ts : List (List Action)) (w : Nat) (rest : List Action)
    (hw : w < ts.length) (i : Nat) :
    (ts.set w rest).getD i [] = if i = w then rest else ts.getD i [] := by
  by_cases hi : i = w
  · subst hi
    rw [if_pos rfl, List.getD_eq_getElem _ _ (by simpa [List.length_set] using hw)]
    exact List.getElem_set_self _
  · rw [if_neg hi]
    by_cases hik : i < ts.length
    · rw [List.getD_eq_getElem _ _ (by simpa [List.length_set] using hik),
        List.getD_eq_getElem _ _ hik]
      exact List.getElem_set_ne (fun h => hi h.symm) _
    · rw [List.getD_eq_default _ _ (by simpa [List.length_set] using Nat.le_of_not_lt hik),
        List.getD_eq_default _ _ (Nat.le_of_not_lt hik)]

/-- A non-empty trace lives at an in-range index. -/
theorem lt_length_of_getD_ne_nil {ts : List (List Action)} {i : Nat}
    (h : ts.getD i [] ≠ []) : i < ts.length := by
  by_contra hik
  exact h (List.getD_eq_default _ _ (Nat.le_of_not_lt hik))

/-- Splitting the pending sends after one worker consumed its front action. -/
theorem exists_send_mem_set_iff {traces : List (List Action)} {wid : Nat}
    {a : Action} {rest : List Action} (x : Action)
    (hhead : traces.getD wid [] = a :: rest) (hw : wid < traces.length) :
    ((∃ i, x ∈ (traces.set wid rest).getD i []) ∨ x = a) ↔
      ∃ i, x ∈ traces.getD i [] := by
  constructor
  · rintro (⟨i, hi⟩ | hxa)
    · rw [getD_set_eq_ite traces wid rest hw i] at hi
      by_cases hiw : i = wid
      · rw [if_pos hiw] at hi
        exact ⟨wid, by rw [hhead]; exact List.mem_cons_of_mem _ hi⟩
      · rw [if_neg hiw] at hi
        exact ⟨i, hi⟩
    · subst hxa
      exact ⟨wid, by rw [hhead]; exact List.mem_cons_self _ _⟩
  · rintro ⟨i, hi⟩
    by_cases hiw : i = wid
    · subst hiw
      rw [hhead] at hi
      rcases List.mem_cons.mp hi with h | h
      · exact Or.inr h
      · exact Or.inl ⟨i, by rw [getD_set_eq_ite traces i rest hw i, if_pos rfl]; exact h⟩
    · exact Or.inl ⟨i, by rw [getD_set_eq_ite traces wid rest hw i, if_neg hiw]; exact hi⟩

/-- The channel content after running a complete interleaving: a non-progress
result is on the channel exactly when it was there initially or some worker
trace contains its send. -/
theorem mem_runTagged_stream (total : Nat) (r : Result)
    (hr : r.type ≠ ResultType.progressUpdate) :
    ∀ (l : List (Nat × Action)) (traces : List (List Action)) (st : ExecState),
      isInterleaving traces l = true →
      (r ∈ (runTagged total st l).stream ↔
        r ∈ st.stream ∨ ∃ i, Action.send r ∈ traces.getD i [])
  | [], traces, st, hv => by
    have hall : traces.all List.isEmpty = true := by simpa [isInterleaving] using hv
    show r ∈ st.stream ↔ r ∈ st.stream ∨ ∃ i, Action.send r ∈ traces.getD i []
    constructor
    · exact fun h => Or.inl h
    · rintro (h | ⟨i, hi⟩)
      · exact h
      · rw [getD_eq_nil_of_all_isEmpty traces hall i] at hi
        cases hi
  | (wid, a) :: l, traces, st, hv => by
    rcases hhead : traces.getD wid [] with _ | ⟨b, rest⟩
    · rw [isInterleaving, hhead] at hv
      cases hv
    · have hv2 : (if a = b then isInterleaving (traces.set wid rest) l else false) = true := by
        rw [isInterleaving, hhead] at hv
        exact hv
      by_cases hab : a = b
      · rw [if_pos hab] at hv2
        subst hab
        have hw : wid < traces.length := lt_length_of_getD_ne_nil (by rw [hhead]; simp)
        have ih := mem_runTagged_stream total r hr l (traces.set wid rest)
          (execAction total st wid a) hv2
        show r ∈ (runTagged total (execAction total st wid a) l).stream ↔ _
        rw [ih]
        rw [← exists_send_mem_set_iff (Action.send r) hhead hw]
        cases a with
        | incr => simp [execAction]
        | readCounter => simp [execAction]
        | sendProgress =>
          have hne : r ≠ { type := ResultType.progressUpdate,
                           progress := st.locals wid, total := total } := by
            intro h
            exact hr (by rw [h])
          simp [execAction, hne]
        | send r2 =>
          by_cases hrr : r = r2
          · subst hrr
            simp [execAction]
          · have hrr2 : ¬(Action.send r = Action.send r2) := by
              intro h
              exact hrr (by injection h)
            simp [execAction, hrr, hrr2]
      · rw [if_neg hab] at hv2
        cases hv2

/-- A send action occurs in some trace of a mapped trace list exactly when it
occurs in the trace of some listed account. -/
theorem exists_mem_map_getD_iff (f : String → List Action) (x : Action) :
    ∀ (accounts : List String),
      (∃ i, x ∈ (accounts.map f).getD i []) ↔ ∃ acc ∈ accounts, x ∈ f acc
  | [] => by simp [List.getD]
  | acc :: accounts => by
    constructor
    · rintro ⟨i, hi⟩
      cases i with
      | zero => exact ⟨acc, List.mem_cons_self _ _, by simpa [List.getD_cons_zero] using hi⟩
      | succ i =>
        obtain ⟨a2, ha2, hx⟩ := (exists_mem_map_getD_iff f x accounts).mp
          ⟨i, by simpa [List.getD_cons_succ] using hi⟩
        exact ⟨a2, List.mem_cons_of_mem _ ha2, hx⟩
    · rintro ⟨a2, ha2, hx⟩
      rcases List.mem_cons.mp ha2 with h | h
      · subst h
        exact ⟨0, by simpa [List.getD_cons_zero] using hx⟩
      · obtain ⟨i, hi⟩ := (exists_mem_map_getD_iff f x accounts).mpr ⟨a2, h, hx⟩
        exact ⟨i + 1, by simpa [List.getD_cons_succ] using hi⟩

/-- The send actions occurring in `scanContainers` are exactly the
`ContainerFound` results of the listed containers whose probe reports
existence, carrying the probe's public flag. -/
theorem send_mem_containerActions (p : Probes) (acc : String) (r : Result) :
    ∀ (cs : List String),
      Action.send r ∈ containerActions p acc cs ↔
        ∃ c ∈ cs, (p.checkContainer acc c).1 = true ∧
          r = { type := ResultType.containerFound, accountName := acc,
                containerName := c, isPublic := (p.checkContainer acc c).2 }
  | [] => by simp [containerActions]
  | c :: cs => by
    by_cases hpc : (p.checkContainer acc c).1 = true
    · simp [containerActions, hpc, send_mem_containerActions p acc r cs]
    · simp [containerActions, hpc, send_mem_containerActions p acc r cs]

/-- The send actions occurring in a worker's trace are exactly: its
`AccountFound` (when the account probe succeeds) and the container sends of
`scanContainers`. -/
theorem send_mem_workerActions (p : Probes) (containers : List String)
    (acc : String) (r : Result) :
    Action.send r ∈ workerActions p containers acc ↔
      (p.checkAccount acc = true ∧
        (r = { type := ResultType.accountFound, accountName := acc } ∨
          ∃ c ∈ containers, (p.checkContainer acc c).1 = true ∧
            r = { type := ResultType.containerFound, accountName := acc,
                  containerName := c, isPublic := (p.checkContainer acc c).2 })) := by
  by_cases hpa : p.checkAccount acc = true
  · simp [workerActions, hpa, send_mem_containerActions]
  · simp [workerActions, hpa]

/-- C1 amended: in every execution of a scan, a `ContainerFound` event for
`(a, c)` with public flag `pub` appears on the event stream exactly when `a`
is a listed account whose probe succeeds, `c` is a listed container name, and
the container probe reports `(exists = true, public = pub)` — i.e. the
scanner emits the event whenever the container exists, whether or not it is
anonymously listable, carrying the probe's public flag; existing-but-private
containers do appear on the stream (with `IsPublic = false`) and are only
filtered out of the display by the consumer. -/
theorem containerFound_mem_scanStream_iff (p : Probes) (accounts containers : List String)
    (l : List (Nat × Action)) (a c : String) (pub : Bool)
    (hv : validSchedule p accounts containers l = true) :
    (({ type := ResultType.containerFound, accountName := a, containerName := c,
        isPublic := pub } : Result) ∈ scanStream p accounts containers l) ↔
      (a ∈ accounts ∧ p.checkAccount a = true ∧ c ∈ containers ∧
        p.checkContainer a c = (true, pub)) := by
  have hv2 : isInterleaving (scanTraces p accounts containers) l = true := hv
  have hr : ({ type := ResultType.containerFound, accountName := a, containerName := c,
               isPublic := pub } : Result).type ≠ ResultType.progressUpdate := by
    intro h
    cases h
  have h1 := mem_runTagged_stream (accounts.length * containers.length) _ hr l
    (scanTraces p accounts containers) initExec hv2
  unfold scanStream
  rw [List.mem_append, h1]
  constructor
  · rintro ((h | h) | hfin)
    · simp [initExec] at h
    · have h3 := (exists_mem_map_getD_iff (workerActions p containers) _ accounts).mp
        (by simpa [scanTraces] using h)
      obtain ⟨acc, hacc, hsend⟩ := h3
      rw [send_mem_workerActions] at hsend
      obtain ⟨hchk, hcase⟩ := hsend
      rcases hcase with hcase | ⟨c2, hc2, hex, heq⟩
      · simp at hcase
      · simp only [Result.mk.injEq, true_and, and_true] at heq
        obtain ⟨ha, hc, hpub⟩ := heq
        subst ha
        subst hc
        refine ⟨hacc, hchk, hc2, ?_⟩
        rw [Prod.ext_iff]
        exact ⟨hex, hpub.symm⟩
    · simp [finishedResult] at hfin
  · rintro ⟨ha, hchk, hc, hcc⟩
    left
    right
    have hsend : Action.send ({ type := ResultType.containerFound, accountName := a,
                                containerName := c, isPublic := pub } : Result) ∈
        workerActions p containers a := by
      rw [send_mem_workerActions]
      refine ⟨hchk, Or.inr ⟨c, hc, ?_, ?_⟩⟩
      · rw [hcc]
      · rw [hcc]
    have h4 := (exists_mem_map_getD_iff (workerActions p containers) _ accounts).mpr
      ⟨a, ha, hsend⟩
    simpa [scanTraces] using h4

/-- C1 amended witness: an instance of `containerFound_mem_scanStream_iff` at
a concrete scan (every probe succeeds and reports public) under its
sequential schedule. -/
theorem containerFound_mem_scanStream_iff_witness :
    validSchedule allPublicProbes ["a1"] ["c1", "c2"]
        (seqSched (scanTraces allPublicProbes ["a1"] ["c1", "c2"])) = true ∧
    ((({ type := ResultType.containerFound, accountName := "a1", containerName := "c1",
         isPublic := true } : Result) ∈
        scanStream allPublicProbes ["a1"] ["c1", "c2"]
          (seqSched (scanTraces allPublicProbes ["a1"] ["c1", "c2"]))) ↔
      ("a1" ∈ ["a1"] ∧ allPublicProbes.checkAccount "a1" = true ∧ "c1" ∈ ["c1", "c2"] ∧
        allPublicProbes.checkContainer "a1" "c1" = (true, true))) :=
  ⟨by decide,
    containerFound_mem_scanStream_iff allPublicProbes ["a1"] ["c1", "c2"]
      (seqSched (scanTraces allPublicProbes ["a1"] ["c1", "c2"])) "a1" "c1" true (by decide)⟩

/-- C7: in every execution of a scan, exactly one `ScanFinished` result is
on the event stream, and it is the last event: it is sent only after
`wg.Wait()`, i.e. after every worker action of the schedule, and nothing
follows it before the channel is closed. -/
theorem scanFinished_exactly_once_last (p : Probes) (accounts containers : List String)
    (l : List (Nat × Action)) (hv : validSchedule p accounts containers l = true) :
    (scanStream p accounts containers l).countP
        (fun r => r.type == ResultType.scanFinished) = 1 ∧
    (scanStream p accounts containers l).getLast? = some finishedResult := by
  have hv2 : isInterleaving (scanTraces p accounts containers) l = true := hv
  have hnone : ∀ r ∈ (runTagged (accounts.length * containers.length) initExec l).stream,
      r.type ≠ ResultType.scanFinished := by
    intro r hmem htype
    have hr : r.type ≠ ResultType.progressUpdate := by
      rw [htype]
      intro h
      cases h
    rcases (mem_runTagged_stream _ r hr l _ initExec hv2).mp hmem with h | h
    · simp [initExec] at h
    · have h3 := (exists_mem_map_getD_iff (workerActions p containers) _ accounts).mp
        (by simpa [scanTraces] using h)
      obtain ⟨acc, _, hsend⟩ := h3
      rw [send_mem_workerActions] at hsend
      rcases hsend.2 with hcase | ⟨c2, _, _, hcase⟩
      · rw [hcase] at htype
        simp at htype
      · rw [hcase] at htype
        simp at htype
  constructor
  · unfold scanStream
    rw [List.countP_append]
    have hz : (runTagged (accounts.length * containers.length) initExec l).stream.countP
        (fun r => r.type == ResultType.scanFinished) = 0 := by
      rw [List.countP_eq_zero]
      intro r hmem
      simp only [beq_iff_eq]
      exact fun h => hnone r hmem (by simpa using h)
    rw [hz]
    decide
  · unfold scanStream
    exact List.getLast?_concat _

/-- C7 witness: an instance of `scanFinished_exactly_once_last` at a concrete
scan under its sequential schedule. -/
theorem scanFinished_exactly_once_last_witness :
    validSchedule allPublicProbes ["a1"] ["c1", "c2"]
        (seqSched (scanTraces allPublicProbes ["a1"] ["c1", "c2"])) = true ∧
    ((scanStream allPublicProbes ["a1"] ["c1", "c2"]
        (seqSched (scanTraces allPublicProbes ["a1"] ["c1", "c2"]))).countP
          (fun r => r.type == ResultType.scanFinished) = 1 ∧
      (scanStream allPublicProbes ["a1"] ["c1", "c2"]
        (seqSched (scanTraces allPublicProbes ["a1"] ["c1", "c2"]))).getLast?
          = some finishedResult) :=
  ⟨by decide,
    scanFinished_exactly_once_last allPublicProbes ["a1"] ["c1", "c2"]
      (seqSched (scanTraces allPublicProbes ["a1"] ["c1", "c2"])) (by decide)⟩

end AzBlobRobber
